import Mathlib

/-!
Verification of the IT Access Request Assistant core: a shallow embedding of
the rule engine (`ruleEngine.service.ts`), the approval ledger
(`approval.service.ts`), the request state machine (`requestState.service.ts`,
`stateTransition.service.ts`), the notification composer
(`approvalEvent.service.ts`) and the escalation tracker
(`escalation.service.ts`), together with theorems about the authorization
invariants of the system.

In-memory `Map`s become association lists, the wall clock and the random id
generator become explicit `now`/`freshId` arguments, and a thrown `Error`
becomes `Except.error`; every operation also returns the store it leaves
behind, so frame conditions can be stated.  The static JSON data files
(`users.json`, `projects.json`, `projectAssignments.json`) are passed as an
explicit `DataEnv` so theorems quantify over their contents.
-/

namespace Access

/-- `UserRole` from `models/AccessRequest.ts`. -/
inductive UserRole where
  | Intern
  | Developer
  | Manager
  | ITAdministrator
deriving DecidableEq, Repr, Fintype

/-- `SystemName` from `models/AccessRequest.ts`. -/
inductive SystemName where
  | Email
  | GitHub
  | Jira
deriving DecidableEq, Repr, Fintype

/-- `AccessLevel` from `models/AccessRequest.ts` (`'default'` is `dfault`). -/
inductive AccessLevel where
  | readOnly
  | readWrite
  | admin
  | view
  | comment
  | createEdit
  | dfault
deriving DecidableEq, Repr, Fintype

/-- `RequestStatus` from `models/AccessRequest.ts`. -/
inductive RequestStatus where
  | approved
  | pending
  | rejected
deriving DecidableEq, Repr, Fintype

/-- `TaskRequestStatus` from `models/AccessRequest.ts`. -/
inductive TaskRequestStatus where
  | DRAFT
  | IN_PROGRESS
  | AWAITING_APPROVAL
  | APPROVED
  | REJECTED
deriving DecidableEq, Repr, Fintype

/-- `AgentConfidence` from `models/AccessRequest.ts`. -/
inductive AgentConfidence where
  | HIGH
  | MEDIUM
  | LOW
deriving DecidableEq, Repr, Fintype

/-- The string a `UserRole` is written as in the TypeScript source. -/
def UserRole.str : UserRole → String
  | .Intern => "Intern"
  | .Developer => "Developer"
  | .Manager => "Manager"
  | .ITAdministrator => "IT Administrator"

/-- The string a `SystemName` is written as in the TypeScript source. -/
def SystemName.str : SystemName → String
  | .Email => "Email"
  | .GitHub => "GitHub"
  | .Jira => "Jira"

/-- The string an `AccessLevel` is written as in the TypeScript source. -/
def AccessLevel.str : AccessLevel → String
  | .readOnly => "read-only"
  | .readWrite => "read-write"
  | .admin => "admin"
  | .view => "view"
  | .comment => "comment"
  | .createEdit => "create-edit"
  | .dfault => "default"

/-- The string a `TaskRequestStatus` is written as in the TypeScript source. -/
def TaskRequestStatus.str : TaskRequestStatus → String
  | .DRAFT => "DRAFT"
  | .IN_PROGRESS => "IN_PROGRESS"
  | .AWAITING_APPROVAL => "AWAITING_APPROVAL"
  | .APPROVED => "APPROVED"
  | .REJECTED => "REJECTED"

/-- JavaScript truthiness of an optional string (`undefined` and `""` are falsy). -/
def strTruthy : Option String → Bool
  | none => false
  | some s => s ≠ ""

/-- `User` from `models/AccessRequest.ts` (an entry of `users.json`). -/
structure User where
  id : String
  name : String
  email : String
  role : UserRole
deriving DecidableEq, Repr

/-- `Project` from `models/AccessRequest.ts` (an entry of `projects.json`). -/
structure Project where
  id : String
  name : String
  managerId : String
deriving DecidableEq, Repr

/-- The static JSON data files the services import, passed explicitly:
`users.json`, `projects.json` and `projectAssignments.json`
(the latter a record mapping a user id to the list of project ids). -/
structure DataEnv where
  users : List User
  projects : List Project
  projectAssignments : List (String × List String)
deriving DecidableEq, Repr

/-- `users.find(u => u.id === userId)`. -/
def DataEnv.findUser (env : DataEnv) (userId : String) : Option User :=
  env.users.find? (fun u => u.id == userId)

/-- `projects.find(p => p.id === projectId)`. -/
def DataEnv.findProject (env : DataEnv) (projectId : String) : Option Project :=
  env.projects.find? (fun p => p.id == projectId)

/-- `projectAssignments[userId] || []`. -/
def DataEnv.assignmentsOf (env : DataEnv) (userId : String) : List String :=
  ((env.projectAssignments.find? (fun a => a.1 == userId)).map (·.2)).getD []

/-- One entry of the RBAC capability table (the `SystemRules` interface of
`ruleEngine.service.ts`); `dfault` is the `default` flag. -/
structure SystemRules where
  dfault : Bool := false
  readOnly : Bool := false
  readWrite : Bool := false
  admin : Bool := false
  view : Bool := false
  comment : Bool := false
  createEdit : Bool := false
  requiresApproval : Bool
  accessLevel : Option AccessLevel := none
deriving DecidableEq, Repr

/-- Modelled from the spec: `backend/src/data/accessRules.json` is not under
`src/`; only its reader (`ruleEngine.service.ts`) is.  The per
(role, resource-system) entries are reconstructed from the repository README
("Access Control Rules", "Auto-Approval Logic": IT Administrators auto-approve
everything; Managers auto-approve Jira admin; Developers auto-approve GitHub
read-write and Jira create-edit; Interns auto-approve Email default and need
manager approval elsewhere) and from the spec's downgrade cascade
(read-write is served as read-only for roles limited to read-only, via the
`accessLevel` override field the code reads). -/
def accessRules (role : UserRole) (system : SystemName) : Option SystemRules :=
  match role, system with
  | .Intern, .Email => some { dfault := true, requiresApproval := false }
  | .Intern, .GitHub =>
      some { readOnly := true, requiresApproval := true, accessLevel := some .readOnly }
  | .Intern, .Jira =>
      some { view := true, requiresApproval := true, accessLevel := some .view }
  | .Developer, .Email => some { dfault := true, requiresApproval := false }
  | .Developer, .GitHub =>
      some { readOnly := true, readWrite := true, requiresApproval := false }
  | .Developer, .Jira =>
      some { view := true, comment := true, createEdit := true, requiresApproval := false }
  | .Manager, .Email => some { dfault := true, requiresApproval := false }
  | .Manager, .GitHub =>
      some { readOnly := true, readWrite := true, requiresApproval := false }
  | .Manager, .Jira =>
      some { view := true, comment := true, createEdit := true, requiresApproval := false }
  | .ITAdministrator, .Email => some { dfault := true, requiresApproval := false }
  | .ITAdministrator, .GitHub =>
      some { readOnly := true, readWrite := true, admin := true, requiresApproval := false }
  | .ITAdministrator, .Jira =>
      some { view := true, comment := true, createEdit := true, admin := true,
             requiresApproval := false }

/-- Modelled from the spec: the role-level `adminAccess.requiresApproval` flag
of `accessRules.json` (README: "Developer: Standard access, admin requires
approval"). -/
def adminAccessRequiresApproval (role : UserRole) : Bool :=
  role == .Developer

/-- Modelled from the spec: the role-level `canApprove` /
`finalApprovalAuthority` flags of `accessRules.json` read by
`canApproveRequests` ("Only authorized roles (Manager, IT Administrator) can
approve requests", `approval.service.ts`). -/
def canApproveRequests (role : UserRole) : Bool :=
  role == .Manager || role == .ITAdministrator

/-- Modelled from the spec: `hasFinalApprovalAuthority` of
`ruleEngine.service.ts` over the reconstructed rules (only the
IT Administrator holds `finalApprovalAuthority`). -/
def hasFinalApprovalAuthority (role : UserRole) : Bool :=
  role == .ITAdministrator

/-- `ValidationResult` from `models/AccessRequest.ts`.  Optional booleans that
the code only ever sets to `true` are modelled as `Bool` (absent = `false`). -/
structure ValidationResult where
  isValid : Bool
  requiresApproval : Bool
  requiresEscalation : Bool := false
  escalationTo : Option String := none
  allowedAccessLevel : Option AccessLevel := none
  rejectionReason : Option String := none
  downgradeReason : Option String := none
deriving DecidableEq, Repr

/-- Result of `validateProjectAccess` in `ruleEngine.service.ts`. -/
structure ProjectAccess where
  isAssigned : Bool
  managerId : Option String := none
deriving DecidableEq, Repr

/-- `validateProjectAccess` from `ruleEngine.service.ts`: IT Administrators
(per the `users.json` lookup) are assigned to every project; otherwise the
user's `projectAssignments` entry must contain the project id, and on failure
the project's manager is reported. -/
def validateProjectAccess (env : DataEnv) (userId projectId : String) : ProjectAccess :=
  if (env.findUser userId).map User.role == some UserRole.ITAdministrator then
    { isAssigned := true }
  else if (env.assignmentsOf userId).contains projectId then
    { isAssigned := true }
  else
    { isAssigned := false, managerId := (env.findProject projectId).map Project.managerId }

/-- The `accessLevelMap` of `validateAccessRequest`: whether the requested
level passes the per-level rule check. -/
def checkAccess (rules : SystemRules) : AccessLevel → Bool
  | .readOnly => rules.readOnly
  | .readWrite => rules.readWrite || rules.readOnly
  | .admin => rules.admin
  | .view => rules.view
  | .comment => rules.comment || rules.view
  | .createEdit => rules.createEdit || rules.comment
  | .dfault => rules.dfault

/-- `findDowngradedAccessLevel` from `ruleEngine.service.ts`. -/
def findDowngradedAccessLevel (systemRules : SystemRules) (requestedLevel : AccessLevel)
    (system : Option SystemName) (userRole : Option UserRole) : Option AccessLevel :=
  if system == some .Email && userRole == some .Intern && systemRules.dfault &&
      (requestedLevel == .readOnly || requestedLevel == .readWrite ||
       requestedLevel == .admin) then
    some .dfault
  else if requestedLevel == .readWrite && systemRules.readOnly then
    some .readOnly
  else if requestedLevel == .createEdit && systemRules.comment then
    some .comment
  else if requestedLevel == .createEdit && systemRules.view then
    some .view
  else if requestedLevel == .comment && systemRules.view then
    some .view
  else
    none

/-- The part of `validateAccessRequest` that runs after the project-membership
gate: the admin-level gate followed by the capability check and downgrade
cascade. -/
def validateAccessRequestRules (userRole : UserRole) (system : SystemName)
    (requestedAccessLevel : AccessLevel) : ValidationResult :=
  match accessRules userRole system with
  | none =>
      { isValid := false, requiresApproval := false,
        rejectionReason := some ("Access to " ++ system.str ++
          " is not defined for role " ++ userRole.str) }
  | some systemRules =>
      if requestedAccessLevel = .admin then
        if userRole = .ITAdministrator then
          { isValid := true, requiresApproval := false, allowedAccessLevel := some .admin }
        else if userRole = .Manager ∧ system = .Jira then
          { isValid := true, requiresApproval := false, allowedAccessLevel := some .admin }
        else if userRole = .Developer ∧ adminAccessRequiresApproval userRole then
          { isValid := true, requiresApproval := true, allowedAccessLevel := some .admin }
        else
          { isValid := false, requiresApproval := false,
            rejectionReason := some ("Role " ++ userRole.str ++
              " cannot be granted admin access to " ++ system.str) }
      else if checkAccess systemRules requestedAccessLevel then
        { isValid := true, requiresApproval := systemRules.requiresApproval,
          allowedAccessLevel := some (systemRules.accessLevel.getD requestedAccessLevel) }
      else
        match findDowngradedAccessLevel systemRules requestedAccessLevel
            (some system) (some userRole) with
        | some downgradedLevel =>
            { isValid := true, requiresApproval := systemRules.requiresApproval,
              allowedAccessLevel := some downgradedLevel,
              downgradeReason := some ("Requested " ++ requestedAccessLevel.str ++
                " but role " ++ userRole.str ++ " is limited to " ++
                downgradedLevel.str ++ " for " ++ system.str) }
        | none =>
            { isValid := false, requiresApproval := false,
              rejectionReason := some ("Role " ++ userRole.str ++
                " cannot be granted " ++ requestedAccessLevel.str ++ " access to " ++
                system.str) }

/-- `validateAccessRequest` from `ruleEngine.service.ts`: the
project-membership gate runs first whenever a (truthy) project id is supplied,
and only then the role/level rules. -/
def validateAccessRequest (env : DataEnv) (userId : String) (userRole : UserRole)
    (system : SystemName) (requestedAccessLevel : AccessLevel)
    (projectId : Option String) : ValidationResult :=
  match projectId with
  | some pid =>
      if pid = "" then
        validateAccessRequestRules userRole system requestedAccessLevel
      else
        let projectAccess := validateProjectAccess env userId pid
        if projectAccess.isAssigned then
          validateAccessRequestRules userRole system requestedAccessLevel
        else
          { isValid := false, requiresApproval := false, requiresEscalation := true,
            escalationTo := projectAccess.managerId,
            rejectionReason := some ("You are not assigned to this project. " ++
              "Access requires escalation to the project manager.") }
  | none => validateAccessRequestRules userRole system requestedAccessLevel

/-- `AccessRequest` from `models/AccessRequest.ts`: a ledger entry for one
finalized submission. -/
structure AccessRequest where
  id : String
  userId : String
  userName : String
  userRole : UserRole
  system : SystemName
  accessLevel : AccessLevel
  project : Option String := none
  projectId : Option String := none
  projectOwnerManagerId : Option String := none
  targetEmployeeId : Option String := none
  employeeOwnerId : Option String := none
  assignedApproverId : Option String := none
  fallbackApproverId : Option String := none
  reason : Option String := none
  status : RequestStatus
  requiresApproval : Bool
  requiresEscalation : Option Bool := none
  escalationTo : Option String := none
  approvalBy : Option UserRole := none
  approverId : Option String := none
  approverRole : Option UserRole := none
  approvedAt : Option String := none
  rejectedAt : Option String := none
  rejectionReason : Option String := none
  escalationJustification : Option String := none
  createdAt : String
  updatedAt : String
deriving DecidableEq, Repr

/-- `generateAccessLink` from `approvalEvent.service.ts`. -/
def generateAccessLink (system : SystemName) (_accessLevel : AccessLevel)
    (project : Option String) (userId : Option String)
    (targetEmployeeId : Option String) : String :=
  match system with
  | .GitHub =>
      if strTruthy project then
        let projectSlug :=
          if project == some "Project Alpha" then "project-alpha"
          else if project == some "Project Beta" then "project-beta"
          else "main"
        "https://github.com/company/" ++ projectSlug
      else "https://github.com/company"
  | .Jira =>
      if strTruthy project then
        let projectKey :=
          if project == some "Project Alpha" then "ALPHA"
          else if project == some "Project Beta" then "BETA"
          else "MAIN"
        "https://company.atlassian.net/projects/" ++ projectKey
      else if strTruthy targetEmployeeId then
        "https://company.atlassian.net/people/" ++ targetEmployeeId.getD ""
      else "https://company.atlassian.net"
  | .Email =>
      let emailUserId := if strTruthy targetEmployeeId then targetEmployeeId else userId
      if strTruthy emailUserId then
        "mailto:" ++ emailUserId.getD "" ++ "@company.com"
      else "mailto:access@company.com"

/-- `'approval' | 'rejection'` discriminator of `ApprovalEvent`. -/
inductive ApprovalEventType where
  | approval
  | rejection
deriving DecidableEq, Repr

/-- `ApprovalEvent` from `approvalEvent.service.ts`: the structured
notification record emitted on a decision. -/
structure ApprovalEvent where
  type : ApprovalEventType
  requestId : String
  managerId : String
  internId : String
  managerMessage : String
  internMessage : String
  projectOwnerManagerId : Option String := none
  projectOwnerMessage : Option String := none
  originalResourceOwnerId : Option String := none
  originalResourceOwnerMessage : Option String := none
  approverRole : UserRole
  approvedAt : Option String := none
  rejectedAt : Option String := none
  accessLink : Option String := none
  rejectionReason : Option String := none
deriving DecidableEq, Repr

/-- `emitApprovalEvent` from `approvalEvent.service.ts`: messages for the
actor and the requester, plus a message for the original resource owner
exactly when an IT Administrator approved a request whose
`assignedApproverId` is someone else. -/
def emitApprovalEvent (users : List User) (request : AccessRequest)
    (approverId : String) (approverRole : UserRole) (accessLink : String)
    (approvedAt : String) : ApprovalEvent :=
  let targetEmployee : Option User :=
    match request.targetEmployeeId with
    | some tid => users.find? (fun u => u.id == tid)
    | none => none
  let isEmployeeOwned :=
    strTruthy request.employeeOwnerId && strTruthy request.targetEmployeeId
  let managerMessage :=
    if isEmployeeOwned then
      "Approved request from " ++ request.userName ++ " (" ++ request.userRole.str ++
        ") for " ++ request.system.str ++ " " ++ request.accessLevel.str ++
        " access to your account"
    else
      "Approved request from " ++ request.userName ++ " (" ++ request.userRole.str ++
        ") for " ++ request.system.str ++ " " ++ request.accessLevel.str ++ " access" ++
        (if strTruthy request.project then " to " ++ request.project.getD "" else "")
  let internMessage :=
    if isEmployeeOwned then
      "Your request for " ++ request.system.str ++ " " ++ request.accessLevel.str ++
        " access to " ++ ((targetEmployee.map User.name).getD "employee") ++
        "'s account has been approved. Access link: " ++ accessLink
    else
      "Your request for " ++ request.system.str ++ " " ++ request.accessLevel.str ++
        " access" ++
        (if strTruthy request.project then " to " ++ request.project.getD "" else "") ++
        " has been approved. Access link: " ++ accessLink
  let notifyOriginalOwner :=
    approverRole == .ITAdministrator && strTruthy request.assignedApproverId &&
      request.assignedApproverId != some approverId
  let originalResourceOwnerId :=
    if notifyOriginalOwner then request.assignedApproverId else none
  let originalResourceOwnerMessage :=
    if notifyOriginalOwner then
      if strTruthy request.project then
        some ("IT Admin approved access for " ++ request.userName ++ " to " ++
          request.project.getD "")
      else if strTruthy request.targetEmployeeId && targetEmployee.isSome then
        some ("IT Admin approved access for " ++ request.userName ++ " to " ++
          ((targetEmployee.map User.name).getD "") ++ "'s " ++ request.system.str ++
          " account")
      else
        some ("IT Admin approved access for " ++ request.userName ++ " to " ++
          request.system.str)
    else none
  { type := .approval
    requestId := request.id
    managerId := approverId
    internId := request.userId
    managerMessage := managerMessage
    internMessage := internMessage
    projectOwnerManagerId :=
      if approverRole == .ITAdministrator then request.projectOwnerManagerId else none
    projectOwnerMessage :=
      if notifyOriginalOwner && strTruthy request.project then
        originalResourceOwnerMessage
      else none
    originalResourceOwnerId := originalResourceOwnerId
    originalResourceOwnerMessage := originalResourceOwnerMessage
    approverRole := approverRole
    approvedAt := some approvedAt
    accessLink := some accessLink }

/-- `emitRejectionEvent` from `approvalEvent.service.ts`: messages for the
actor and the requester only. -/
def emitRejectionEvent (users : List User) (request : AccessRequest)
    (approverId : String) (approverRole : UserRole) (reason : String)
    (rejectedAt : String) : ApprovalEvent :=
  let targetEmployee : Option User :=
    match request.targetEmployeeId with
    | some tid => users.find? (fun u => u.id == tid)
    | none => none
  let isEmployeeOwned :=
    strTruthy request.employeeOwnerId && strTruthy request.targetEmployeeId
  let managerMessage :=
    if isEmployeeOwned then
      "Rejected request from " ++ request.userName ++ " (" ++ request.userRole.str ++
        ") for " ++ request.system.str ++ " " ++ request.accessLevel.str ++
        " access to your account. Reason: " ++ reason
    else
      "Rejected request from " ++ request.userName ++ " (" ++ request.userRole.str ++
        ") for " ++ request.system.str ++ " " ++ request.accessLevel.str ++ " access" ++
        (if strTruthy request.project then " to " ++ request.project.getD "" else "") ++
        ". Reason: " ++ reason
  let internMessage :=
    if isEmployeeOwned then
      "Your request for " ++ request.system.str ++ " " ++ request.accessLevel.str ++
        " access to " ++ ((targetEmployee.map User.name).getD "employee") ++
        "'s account has been rejected. Reason: " ++ reason
    else
      "Your request for " ++ request.system.str ++ " " ++ request.accessLevel.str ++
        " access" ++
        (if strTruthy request.project then " to " ++ request.project.getD "" else "") ++
        " has been rejected. Reason: " ++ reason
  { type := .rejection
    requestId := request.id
    managerId := approverId
    internId := request.userId
    managerMessage := managerMessage
    internMessage := internMessage
    approverRole := approverRole
    rejectedAt := some rejectedAt
    rejectionReason := some reason }

/-- The in-memory `accessRequests` map of `approval.service.ts`, as the list
of its entries (lookup is by the request's `id`). -/
abbrev LedgerStore := List AccessRequest

/-- `accessRequests.get(requestId)`. -/
def ledgerGet (store : LedgerStore) (requestId : String) : Option AccessRequest :=
  (store : List AccessRequest).find? (fun r => r.id == requestId)

/-- `accessRequests.set(requestId, request)` for an id already present:
replaces the entry in place. -/
def ledgerSet (store : LedgerStore) (requestId : String)
    (request : AccessRequest) : LedgerStore :=
  (store : List AccessRequest).map (fun r => if r.id == requestId then request else r)

/-- Whether the acting identity is the employee owner deciding their own
account's request: `request.employeeOwnerId && request.employeeOwnerId ===
approverId` in `approval.service.ts`. -/
def isEmployeeOwnedDecision (request : AccessRequest) (approverId : Option String) : Bool :=
  strTruthy request.employeeOwnerId && request.employeeOwnerId == approverId

/-- `approveRequest` from `approval.service.ts`.  The wall clock is the `now`
argument.  Returns `(result, store)`: `.ok none` mirrors the `null` return for
an unknown id, `.error` a thrown `Error` (which leaves the store untouched),
and `.ok (some (request, event))` a successful decision together with the
updated store. -/
def approveRequest (users : List User) (store : LedgerStore) (requestId : String)
    (approverRole : UserRole) (approverId : Option String) (now : String) :
    Except String (Option (AccessRequest × ApprovalEvent)) × LedgerStore :=
  match ledgerGet store requestId with
  | none => (.ok none, store)
  | some request =>
      if ¬ (canApproveRequests approverRole ∨ isEmployeeOwnedDecision request approverId) then
        (.error ("Role " ++ approverRole.str ++
          " does not have permission to approve requests"), store)
      else if request.status ≠ .pending then
        (.error ("Request " ++ requestId ++
          " is not in pending status and cannot be approved"), store)
      else
        let accessLink := generateAccessLink request.system request.accessLevel
          request.project (some request.userId) request.targetEmployeeId
        let updated : AccessRequest :=
          { request with
            status := .approved
            approvalBy := some approverRole
            approverId := match approverId with
              | some a => if a ≠ "" then some a else request.approverId
              | none => request.approverId
            approverRole := some approverRole
            approvedAt := some now
            updatedAt := now }
        let store' := ledgerSet store requestId updated
        let eventApproverId := match approverId with
          | some a => if a ≠ "" then a else "unknown"
          | none => "unknown"
        let event := emitApprovalEvent users updated eventApproverId approverRole
          accessLink now
        (.ok (some (updated, event)), store')

/-- `rejectRequest` from `approval.service.ts`: validates the 120-character
bound on the reason, the approver's permission, and the pending status, then
records the rejection. -/
def rejectRequest (users : List User) (store : LedgerStore) (requestId : String)
    (approverRole : UserRole) (reason : String) (approverId : Option String)
    (now : String) :
    Except String (Option (AccessRequest × ApprovalEvent)) × LedgerStore :=
  match ledgerGet store requestId with
  | none => (.ok none, store)
  | some request =>
      if reason.length > 120 then
        (.error "Rejection reason must be 120 characters or less", store)
      else if ¬ (canApproveRequests approverRole ∨
          isEmployeeOwnedDecision request approverId) then
        (.error ("Role " ++ approverRole.str ++
          " does not have permission to reject requests"), store)
      else if request.status ≠ .pending then
        (.error ("Request " ++ requestId ++
          " is not in pending status and cannot be rejected"), store)
      else
        let updated : AccessRequest :=
          { request with
            status := .rejected
            approvalBy := some approverRole
            rejectionReason := some reason
            approverId := match approverId with
              | some a => if a ≠ "" then some a else request.approverId
              | none => request.approverId
            approverRole := some approverRole
            rejectedAt := some now
            updatedAt := now }
        let store' := ledgerSet store requestId updated
        let eventApproverId := match approverId with
          | some a => if a ≠ "" then a else "unknown"
          | none => "unknown"
        let event := emitRejectionEvent users updated eventApproverId approverRole
          reason now
        (.ok (some (updated, event)), store')

/-- `getPendingApprovalsForManager` from `approval.service.ts`: pending
requests that require approval, filtered so that the override authority
(the `admin-001` identity or the IT Administrator role) sees all of them and
every other viewer sees exactly those whose `assignedApproverId` is the
viewer. -/
def getPendingApprovalsForManager (store : LedgerStore) (managerId : String)
    (managerRole : UserRole) : List AccessRequest :=
  if ¬ (canApproveRequests managerRole) ∧ managerRole ≠ .Developer ∧
      managerRole ≠ .Intern then
    []
  else
    let pendingRequests := (store : List AccessRequest).filter
      (fun r => r.status == .pending && r.requiresApproval)
    pendingRequests.filter (fun request =>
      if managerId == "admin-001" || managerRole == .ITAdministrator then
        true
      else if request.assignedApproverId == some managerId then
        true
      else
        false)

/-- `RequestState` from `models/AccessRequest.ts`: the task-driven agent's
per-requester conversation state. -/
structure RequestState where
  user : String
  role : UserRole
  system : Option SystemName := none
  accessLevel : Option AccessLevel := none
  project : Option String := none
  targetEmployeeId : Option String := none
  status : TaskRequestStatus
  agentConfidence : AgentConfidence
  missingFields : List String
  accessLink : Option String := none
  rejectionReason : Option String := none
  approverId : Option String := none
  approverRole : Option UserRole := none
  approvedAt : Option String := none
  rejectedAt : Option String := none
deriving DecidableEq, Repr

/-- `createInitialRequestState` from `requestState.service.ts`. -/
def createInitialRequestState (userId : String) (role : UserRole) : RequestState :=
  { user := userId
    role := role
    status := .DRAFT
    agentConfidence := .MEDIUM
    missingFields := ["system", "accessLevel"] }

/-- Result of `validateRequestState`. -/
structure StateValidation where
  isValid : Bool
  missingFields : List String
  nextAction : String
deriving DecidableEq, Repr

/-- `validateRequestState` from `requestState.service.ts`: recomputes the
ordered missing-fields list (system, then target employee for Email/Jira
Interns, then project for GitHub, then access level). -/
def validateRequestState (state : RequestState) : StateValidation :=
  let missing : List String :=
    (if state.system = none then ["system"] else []) ++
    (if (state.system = some .Email ∨ state.system = some .Jira) ∧
        state.role = .Intern ∧ state.targetEmployeeId = none then
      ["targetEmployeeId"] else []) ++
    (if state.system = some .GitHub ∧ state.project = none then ["project"] else []) ++
    (if state.accessLevel = none then ["accessLevel"] else [])
  { isValid := missing.isEmpty
    missingFields := missing
    nextAction := match missing.head? with
      | some f => "Need: " ++ f
      | none => "Ready to submit" }

/-- `calculateMissingFields` from `requestState.service.ts`. -/
def calculateMissingFields (state : RequestState) : List String :=
  (validateRequestState state).missingFields

/-- `calculateConfidence` from `requestState.service.ts`: read-only is HIGH,
an Intern requesting admin is LOW, everything else MEDIUM. -/
def calculateConfidence (state : RequestState) : AgentConfidence :=
  match state.accessLevel with
  | none => .MEDIUM
  | some lvl =>
      if lvl = .readOnly then .HIGH
      else if lvl = .admin ∧ state.role = .Intern then .LOW
      else .MEDIUM

/-- A `Partial<RequestState>` as used by `updateRequestState`: a field that is
`none` is absent from the update object. -/
structure StateUpdates where
  system : Option SystemName := none
  accessLevel : Option AccessLevel := none
  project : Option String := none
  targetEmployeeId : Option String := none
  status : Option TaskRequestStatus := none
  accessLink : Option String := none
  approverId : Option String := none
  approverRole : Option UserRole := none
  approvedAt : Option String := none
  rejectedAt : Option String := none
  rejectionReason : Option String := none
deriving DecidableEq, Repr

/-- `updateRequestState` from `requestState.service.ts`: merges the updates,
clears the dependent fields when the system changes, recomputes the derived
fields, and fires the DRAFT to IN_PROGRESS transition once a system is
selected. -/
def updateRequestState (currentState : RequestState) (updates : StateUpdates) :
    RequestState :=
  let merged : RequestState :=
    { currentState with
      system := match updates.system with
        | some s => some s
        | none => currentState.system
      accessLevel := match updates.accessLevel with
        | some l => some l
        | none => currentState.accessLevel
      project := match updates.project with
        | some p => some p
        | none => currentState.project
      targetEmployeeId := match updates.targetEmployeeId with
        | some t => some t
        | none => currentState.targetEmployeeId
      status := updates.status.getD currentState.status
      accessLink := match updates.accessLink with
        | some a => some a
        | none => currentState.accessLink
      approverId := match updates.approverId with
        | some a => some a
        | none => currentState.approverId
      approverRole := match updates.approverRole with
        | some r => some r
        | none => currentState.approverRole
      approvedAt := match updates.approvedAt with
        | some t => some t
        | none => currentState.approvedAt
      rejectedAt := match updates.rejectedAt with
        | some t => some t
        | none => currentState.rejectedAt
      rejectionReason := match updates.rejectionReason with
        | some r => some r
        | none => currentState.rejectionReason }
  let cleared : RequestState :=
    match updates.system with
    | some s =>
        if currentState.system ≠ some s then
          { merged with
            project := if s ≠ .GitHub then none else merged.project
            accessLevel := none }
        else merged
    | none => merged
  let validation := validateRequestState cleared
  let derived : RequestState :=
    { cleared with
      missingFields := validation.missingFields
      agentConfidence := calculateConfidence cleared }
  if derived.status = .DRAFT ∧ derived.system.isSome then
    { derived with status := .IN_PROGRESS }
  else
    derived

/-- `shouldAutoSubmit` from `requestState.service.ts`: every required field is
present and the recomputed missing-fields list is empty. -/
def shouldAutoSubmit (state : RequestState) : Bool :=
  (calculateMissingFields state).isEmpty &&
  state.system.isSome &&
  state.accessLevel.isSome &&
  (state.system != some .GitHub || state.project.isSome) &&
  ((state.system != some .Email && state.system != some .Jira) ||
    state.role != .Intern || state.targetEmployeeId.isSome)

/-- The `'Project Alpha' -> 'project-1' / 'Project Beta' -> 'project-2'`
mapping used by `stateTransition.service.ts` and the controller. -/
def projectIdOfName : Option String → Option String
  | some "Project Alpha" => some "project-1"
  | some "Project Beta" => some "project-2"
  | _ => none

/-- `transitionToAwaitingApproval` from `stateTransition.service.ts`: guards
the IN_PROGRESS status and field completeness, validates against the rule
engine (a failure aborts the transition), forces approval for employee-owned
requests, creates the ledger entry, and either auto-approves or moves the
state to AWAITING_APPROVAL.  `freshId`/`now` stand for the generated request
id and the wall clock; the created `AccessRequest` is returned alongside the
new state. -/
def transitionToAwaitingApproval (env : DataEnv) (state : RequestState)
    (freshId now : String) : Except String (RequestState × AccessRequest) :=
  if state.status ≠ .IN_PROGRESS then
    .error ("Invalid transition from " ++ state.status.str ++
      " to AWAITING_APPROVAL/APPROVED")
  else if ¬ shouldAutoSubmit state then
    .error "Cannot transition to AWAITING_APPROVAL: missing required fields"
  else
    match state.system, state.accessLevel with
    | some system, some accessLevel =>
        let projectId := projectIdOfName state.project
        let validationResult := validateAccessRequest env state.user state.role
          system accessLevel projectId
        if ¬ validationResult.isValid then
          .error ("Access request validation failed: " ++
            (validationResult.rejectionReason.getD "Invalid request"))
        else
          let projectOwnerManagerId : Option String :=
            match projectId with
            | some pid =>
                match env.findProject pid with
                | some project =>
                    if project.managerId ≠ "" then some project.managerId else none
                | none => none
            | none => none
          let employeeOwnerId : Option String :=
            if (system = .Email ∨ system = .Jira) ∧ strTruthy state.targetEmployeeId then
              state.targetEmployeeId
            else none
          let assignedApproverId : Option String :=
            if strTruthy projectOwnerManagerId then projectOwnerManagerId
            else if strTruthy employeeOwnerId then employeeOwnerId
            else none
          let isEmployeeOwnedRequest := employeeOwnerId.isSome
          let finalRequiresApproval :=
            if isEmployeeOwnedRequest then true else validationResult.requiresApproval
          let fallbackApproverId : Option String :=
            if finalRequiresApproval then some "admin-001" else none
          let userName := ((env.findUser state.user).map User.name).getD state.user
          let accessRequest : AccessRequest :=
            { id := freshId
              userId := state.user
              userName := userName
              userRole := state.role
              system := system
              accessLevel := accessLevel
              project := state.project
              projectId := projectId
              projectOwnerManagerId := projectOwnerManagerId
              targetEmployeeId := state.targetEmployeeId
              employeeOwnerId := employeeOwnerId
              assignedApproverId := assignedApproverId
              fallbackApproverId := fallbackApproverId
              status := if finalRequiresApproval then .pending else .approved
              requiresApproval := finalRequiresApproval
              createdAt := now
              updatedAt := now }
          if ¬ finalRequiresApproval then
            let accessLink := generateAccessLink system accessLevel state.project
              (some state.user) state.targetEmployeeId
            .ok (updateRequestState state
              { status := some .APPROVED
                accessLink := some accessLink
                approvedAt := some now
                approverId := some state.user
                approverRole := some state.role }, accessRequest)
          else
            .ok (updateRequestState state { status := some .AWAITING_APPROVAL },
              accessRequest)
    | _, _ => .error "Cannot transition to AWAITING_APPROVAL: missing required fields"

/-- `processStateUpdate` from `stateTransition.service.ts`: applies the
updates, and when the state is IN_PROGRESS and complete attempts the
auto-submission; a failed attempt is swallowed and the updated (still
IN_PROGRESS) state is returned. -/
def processStateUpdate (env : DataEnv) (state : RequestState)
    (updates : StateUpdates) (freshId now : String) : RequestState :=
  let updatedState := updateRequestState state updates
  if updatedState.status = .IN_PROGRESS ∧ shouldAutoSubmit updatedState then
    match transitionToAwaitingApproval env updatedState freshId now with
    | .ok (newState, _) => newState
    | .error _ => updatedState
  else
    updatedState

/-- The in-memory `requestStates` map of `requestState.service.ts`, keyed by
user id. -/
abbrev StateStore := List (String × RequestState)

/-- `requestStates.get(userId)`. -/
def stateGet (store : StateStore) (userId : String) : Option RequestState :=
  (store.find? (fun e => e.1 == userId)).map (·.2)

/-- `requestStates.set(userId, state)` for a key already present. -/
def stateSet (store : StateStore) (userId : String) (state : RequestState) :
    StateStore :=
  store.map (fun e => if e.1 == userId then (e.1, state) else e)

/-- `updateRequestStateFromApproval` from `requestState.service.ts`: writes an
approval outcome back into the requester's state, but only when that state is
AWAITING_APPROVAL; otherwise the store is left untouched. -/
def updateRequestStateFromApproval (store : StateStore) (userId : String)
    (accessLink : String) (approverId : Option String)
    (approverRole : Option UserRole) (approvedAt : Option String) :
    Option RequestState × StateStore :=
  match stateGet store userId with
  | none => (none, store)
  | some currentState =>
      if currentState.status ≠ .AWAITING_APPROVAL then
        (some currentState, store)
      else
        let updatedState : RequestState :=
          { currentState with
            status := .APPROVED
            accessLink := some accessLink
            approverId := approverId
            approverRole := approverRole
            approvedAt := approvedAt
            rejectionReason := none
            rejectedAt := none }
        (some updatedState, stateSet store userId updatedState)

/-- `updateRequestStateFromRejection` from `requestState.service.ts`: writes a
rejection outcome back into the requester's state, but only when that state is
AWAITING_APPROVAL; otherwise the store is left untouched. -/
def updateRequestStateFromRejection (store : StateStore) (userId : String)
    (reason : String) (approverId : Option String)
    (approverRole : Option UserRole) (rejectedAt : Option String) :
    Option RequestState × StateStore :=
  match stateGet store userId with
  | none => (none, store)
  | some currentState =>
      if currentState.status ≠ .AWAITING_APPROVAL then
        (some currentState, store)
      else
        let updatedState : RequestState :=
          { currentState with
            status := .REJECTED
            rejectionReason := some reason
            approverId := approverId
            approverRole := approverRole
            rejectedAt := rejectedAt
            accessLink := none
            approvedAt := none }
        (some updatedState, stateSet store userId updatedState)

/-- `EscalationRequest` from `models/AccessRequest.ts`. -/
structure EscalationRequest where
  id : String
  userId : String
  projectId : String
  system : SystemName
  accessLevel : AccessLevel
  status : RequestStatus
  escalationTo : String
  justification : Option String := none
  createdAt : String
  updatedAt : String
deriving DecidableEq, Repr

/-- The in-memory `escalationRequests` map of `escalation.service.ts`. -/
abbrev EscalationStore := List EscalationRequest

/-- `escalationRequests.get(requestId)`. -/
def escalationGet (store : EscalationStore) (requestId : String) :
    Option EscalationRequest :=
  store.find? (fun r => r.id == requestId)

/-- `escalationRequests.set(requestId, request)` for an id already present. -/
def escalationSet (store : EscalationStore) (requestId : String)
    (request : EscalationRequest) : EscalationStore :=
  store.map (fun r => if r.id == requestId then request else r)

/-- The fixed justification strings of `processManagerDecision`. -/
def escalationJustifications (approved : Bool) : List String :=
  if approved then
    ["Access approved for project collaboration.",
     "User needs access to complete assigned tasks.",
     "Approved based on project requirements.",
     "Access granted for cross-team collaboration."]
  else
    ["User not currently assigned to this project.",
     "Access not required for current project scope.",
     "Request does not align with project needs.",
     "Insufficient justification for access."]

/-- `processManagerDecision` from `escalation.service.ts` (the simulated-timer
path).  The `Math.random()` draws are passed explicitly: `approved` is the
70/30 coin and `pick` selects the canned justification.  The stored status and
justification are overwritten with no check that the escalation is still
pending. -/
def processManagerDecision (store : EscalationStore) (requestId managerId : String)
    (approved : Bool) (pick : Nat) (now : String) :
    Option EscalationRequest × EscalationStore :=
  match escalationGet store requestId with
  | none => (none, store)
  | some request =>
      if request.escalationTo ≠ managerId then
        (none, store)
      else
        let justification :=
          (escalationJustifications approved).getD
            (pick % (escalationJustifications approved).length) ""
        let updated : EscalationRequest :=
          { request with
            status := if approved then .approved else .rejected
            justification := some justification
            updatedAt := now }
        (some updated, escalationSet store requestId updated)

/-- `processManagerDecisionManually` from `escalation.service.ts`: checks only
that the escalation exists and that the justification fits in 120 characters,
then overwrites the stored status and justification (there is no check that
the escalation is still pending). -/
def processManagerDecisionManually (store : EscalationStore) (requestId : String)
    (approved : Bool) (justification : String) (now : String) :
    Except String (Option EscalationRequest) × EscalationStore :=
  match escalationGet store requestId with
  | none => (.ok none, store)
  | some request =>
      if justification.length > 120 then
        (.error "Justification must be 120 characters or less", store)
      else
        let updated : EscalationRequest :=
          { request with
            status := if approved then .approved else .rejected
            justification := some justification
            updatedAt := now }
        (.ok (some updated), escalationSet store requestId updated)

/-! ## Theorems -/

/-- **C1.** A decide operation (`approveRequest` or `rejectRequest`) succeeds
only when the stored request's status is `pending`; calling either on an
already-decided request raises an error and leaves the store (hence the
record's status and decision metadata) unchanged; calling either on an unknown
id returns the `null` result and changes nothing. -/
theorem decide_exactly_once (users : List User) (store : LedgerStore)
    (requestId : String) (approverRole : UserRole) (approverId : Option String)
    (reason now : String) :
    (ledgerGet store requestId = none →
      approveRequest users store requestId approverRole approverId now =
        (.ok none, store) ∧
      rejectRequest users store requestId approverRole reason approverId now =
        (.ok none, store)) ∧
    (∀ request, ledgerGet store requestId = some request →
      request.status ≠ .pending →
      (∃ msg, approveRequest users store requestId approverRole approverId now =
        (.error msg, store)) ∧
      (∃ msg, rejectRequest users store requestId approverRole reason approverId now =
        (.error msg, store))) ∧
    (∀ result store',
      approveRequest users store requestId approverRole approverId now =
        (.ok (some result), store') →
      ∃ request, ledgerGet store requestId = some request ∧
        request.status = .pending) ∧
    (∀ result store',
      rejectRequest users store requestId approverRole reason approverId now =
        (.ok (some result), store') →
      ∃ request, ledgerGet store requestId = some request ∧
        request.status = .pending) := by
  refine ⟨?_, ?_, ?_, ?_⟩
  · intro h
    constructor <;> simp only [approveRequest, rejectRequest, h]
  · intro request h hstat
    constructor
    · simp only [approveRequest, h]
      split_ifs <;> exact ⟨_, rfl⟩
    · simp only [rejectRequest, h]
      split_ifs <;> exact ⟨_, rfl⟩
  · intro result store' h
    cases hg : ledgerGet store requestId with
    | none => simp [approveRequest, hg] at h
    | some request =>
        refine ⟨request, rfl, ?_⟩
        by_contra hstat
        simp only [approveRequest, hg] at h
        split_ifs at h <;> simp at h
  · intro result store' h
    cases hg : ledgerGet store requestId with
    | none => simp [rejectRequest, hg] at h
    | some request =>
        refine ⟨request, rfl, ?_⟩
        by_contra hstat
        simp only [rejectRequest, hg] at h
        split_ifs at h <;> simp at h

/-- An already-approved ledger entry used to witness `decide_exactly_once`. -/
def decidedRequest : AccessRequest :=
  { id := "req-1"
    userId := "intern-001"
    userName := "Alice"
    userRole := .Intern
    system := .GitHub
    accessLevel := .readOnly
    project := some "Project Beta"
    assignedApproverId := some "manager-002"
    status := .approved
    requiresApproval := true
    createdAt := "2024-01-01T00:00:00Z"
    updatedAt := "2024-01-01T00:00:00Z" }

/-- Witness for **C1** at a concrete store: a second decision on the
already-approved `req-1` errors and leaves the store unchanged, and deciding
the unknown `req-9` yields the `null` result. -/
theorem decide_exactly_once_witness :
    (∃ msg, approveRequest [] [decidedRequest] "req-1" .Manager
      (some "manager-002") "2024-01-02T00:00:00Z" = (.error msg, [decidedRequest])) ∧
    approveRequest [] [decidedRequest] "req-9" .Manager
      (some "manager-002") "2024-01-02T00:00:00Z" = (.ok none, [decidedRequest]) := by
  refine ⟨?_, ?_⟩
  · exact ((decide_exactly_once [] [decidedRequest] "req-1" .Manager
      (some "manager-002") "no" "2024-01-02T00:00:00Z").2.1 decidedRequest rfl
      (by decide)).1
  · exact ((decide_exactly_once [] [decidedRequest] "req-9" .Manager
      (some "manager-002") "no" "2024-01-02T00:00:00Z").1 rfl).1

/-- **C2.** `getPendingApprovalsForManager` is an exact filter: a viewer with
override authority (the `admin-001` identity / the IT Administrator role) sees
every pending request, and any other viewer sees exactly the pending requests
whose `assignedApproverId` equals the viewer's id.  The hypothesis is the
ledger invariant maintained by creation: a stored `pending` request always has
`requiresApproval` set. -/
theorem pending_visibility_exact (store : LedgerStore) (managerId : String)
    (managerRole : UserRole)
    (hinv : ∀ r ∈ store, r.status = .pending → r.requiresApproval = true) :
    getPendingApprovalsForManager store managerId managerRole =
      if managerId = "admin-001" ∨ managerRole = .ITAdministrator then
        store.filter (fun r => r.status == .pending)
      else
        store.filter (fun r => r.status == .pending &&
          r.assignedApproverId == some managerId) := by
  unfold getPendingApprovalsForManager
  have hguard : ¬ (¬ (canApproveRequests managerRole = true) ∧
      managerRole ≠ .Developer ∧ managerRole ≠ .Intern) := by
    cases managerRole <;> simp [canApproveRequests]
  rw [if_neg hguard, List.filter_filter]
  by_cases hov : managerId = "admin-001" ∨ managerRole = .ITAdministrator
  · rw [if_pos hov]
    apply List.filter_congr
    intro r hr
    have hcond : (managerId == "admin-001" || managerRole == UserRole.ITAdministrator)
        = true := by
      rcases hov with h | h <;> simp [h]
    rw [hcond]
    by_cases hp : r.status = .pending
    · simp [hp, hinv r hr hp]
    · simp [hp]
  · rw [if_neg hov]
    push_neg at hov
    have hcond : (managerId == "admin-001" || managerRole == UserRole.ITAdministrator)
        = false := by
      simp [hov.1, hov.2]
    apply List.filter_congr
    intro r hr
    rw [hcond]
    by_cases hp : r.status = .pending
    · by_cases ha : r.assignedApproverId = some managerId <;>
        simp [hp, ha, hinv r hr hp]
    · by_cases ha : r.assignedApproverId = some managerId <;> simp [hp, ha]

/-- A pending ledger entry assigned to `manager-001`. -/
def pendingForManager1 : AccessRequest :=
  { decidedRequest with
    id := "req-2"
    status := .pending
    assignedApproverId := some "manager-001" }

/-- A pending ledger entry assigned to `manager-002`. -/
def pendingForManager2 : AccessRequest :=
  { decidedRequest with
    id := "req-3"
    status := .pending
    assignedApproverId := some "manager-002" }

/-- Witness for **C2** at a concrete ledger: Manager `manager-001` sees
exactly the pending request assigned to them, while the IT Administrator sees
both pending requests. -/
theorem pending_visibility_exact_witness :
    getPendingApprovalsForManager
      [pendingForManager1, pendingForManager2, decidedRequest]
      "manager-001" .Manager = [pendingForManager1] ∧
    getPendingApprovalsForManager
      [pendingForManager1, pendingForManager2, decidedRequest]
      "admin-001" .ITAdministrator = [pendingForManager1, pendingForManager2] := by
  constructor
  · rw [pending_visibility_exact _ _ _ (by decide)]
    decide
  · rw [pending_visibility_exact _ _ _ (by decide)]
    decide

/-- **C3.** When a (truthy) project id is supplied and the requester is
neither assigned to that project nor (per the `users.json` lookup) the
IT Administrator, the evaluator returns `requiresEscalation` with the
project's manager as target, and that answer is independent of the requested
role, system and level — the membership gate precedes every role/level
check; when the requester is the IT Administrator the membership gate is
bypassed entirely and the result is that of the pure role/level rules. -/
theorem membership_gate_precedes_level_checks (env : DataEnv) (userId : String)
    (userRole : UserRole) (system : SystemName) (lvl : AccessLevel) (pid : String) :
    (pid ≠ "" →
      (env.findUser userId).map User.role ≠ some .ITAdministrator →
      pid ∉ env.assignmentsOf userId →
      (validateAccessRequest env userId userRole system lvl (some pid)).isValid
          = false ∧
      (validateAccessRequest env userId userRole system lvl
          (some pid)).requiresEscalation = true ∧
      (validateAccessRequest env userId userRole system lvl (some pid)).escalationTo
          = (env.findProject pid).map Project.managerId ∧
      (∀ (userRole' : UserRole) (system' : SystemName) (lvl' : AccessLevel),
        validateAccessRequest env userId userRole' system' lvl' (some pid) =
          validateAccessRequest env userId userRole system lvl (some pid))) ∧
    ((env.findUser userId).map User.role = some .ITAdministrator →
      validateAccessRequest env userId userRole system lvl (some pid) =
        validateAccessRequest env userId userRole system lvl none) := by
  constructor
  · intro hpid hrole hmem
    have hpa : validateProjectAccess env userId pid =
        { isAssigned := false,
          managerId := (env.findProject pid).map Project.managerId } := by
      unfold validateProjectAccess
      rw [if_neg (by simpa using hrole), if_neg (by simpa using hmem)]
    refine ⟨?_, ?_, ?_, ?_⟩ <;>
      simp [validateAccessRequest, hpid, hpa]
  · intro hrole
    have hpa : validateProjectAccess env userId pid = { isAssigned := true } := by
      unfold validateProjectAccess
      rw [if_pos (by simpa using hrole)]
    by_cases hpid : pid = "" <;>
      simp [validateAccessRequest, hpid, hpa]

/-- The mock deployment data reconstructed from the README (Alice the Intern
is assigned only to Project Beta; Bob and Sarah manage Project Alpha and
Project Beta; Michael is the IT Administrator), used by concrete witnesses. -/
def mockEnv : DataEnv :=
  { users :=
      [{ id := "intern-001", name := "Alice", email := "alice@company.com",
         role := .Intern },
       { id := "manager-001", name := "Bob", email := "bob@company.com",
         role := .Manager },
       { id := "manager-002", name := "Sarah", email := "sarah@company.com",
         role := .Manager },
       { id := "admin-001", name := "Michael", email := "michael@company.com",
         role := .ITAdministrator }]
    projects :=
      [{ id := "project-1", name := "Project Alpha", managerId := "manager-001" },
       { id := "project-2", name := "Project Beta", managerId := "manager-002" }]
    projectAssignments :=
      [("intern-001", ["project-2"]),
       ("manager-001", ["project-1"]),
       ("manager-002", ["project-2"]),
       ("admin-001", ["project-1", "project-2"])] }

/-- Witness for **C3**: Alice (not assigned to Project Alpha) is escalated to
Project Alpha's manager Bob, and the IT Administrator bypasses the membership
gate. -/
theorem membership_gate_precedes_level_checks_witness :
    (validateAccessRequest mockEnv "intern-001" .Intern .GitHub .readOnly
      (some "project-1")).requiresEscalation = true ∧
    (validateAccessRequest mockEnv "intern-001" .Intern .GitHub .readOnly
      (some "project-1")).escalationTo = some "manager-001" ∧
    validateAccessRequest mockEnv "admin-001" .ITAdministrator .GitHub .admin
      (some "project-1") =
      validateAccessRequest mockEnv "admin-001" .ITAdministrator .GitHub .admin
        none := by
  refine ⟨?_, ?_, ?_⟩
  · exact ((membership_gate_precedes_level_checks mockEnv "intern-001" .Intern
      .GitHub .readOnly "project-1").1 (by decide) (by decide) (by decide)).2.1
  · have h := ((membership_gate_precedes_level_checks mockEnv "intern-001" .Intern
      .GitHub .readOnly "project-1").1 (by decide) (by decide) (by decide)).2.2.1
    rw [h]
    decide
  · exact (membership_gate_precedes_level_checks mockEnv "admin-001"
      .ITAdministrator .GitHub .admin "project-1").2 (by decide)

/-- Whether the capability table permits exactly `lvl` for the
(role, resource-system) pair: the per-level flag of its entry. -/
def tablePermits (role : UserRole) (system : SystemName) (lvl : AccessLevel) : Bool :=
  match accessRules role system with
  | none => false
  | some r =>
      match lvl with
      | .readOnly => r.readOnly
      | .readWrite => r.readWrite
      | .admin => r.admin
      | .view => r.view
      | .comment => r.comment
      | .createEdit => r.createEdit
      | .dfault => r.dfault

/-- The downgrade cascade exactly as the spec words it (read-write falls to
read-only; create-edit to comment, then view; comment to view), written
against `tablePermits` so the code's behaviour can be compared with it. -/
def specDowngrade (role : UserRole) (system : SystemName) :
    AccessLevel → Option AccessLevel
  | .readWrite =>
      if tablePermits role system .readOnly then some .readOnly else none
  | .createEdit =>
      if tablePermits role system .comment then some .comment
      else if tablePermits role system .view then some .view
      else none
  | .comment =>
      if tablePermits role system .view then some .view else none
  | _ => none

/-- **C4.** For every non-admin requested level the evaluator grants the exact
requested level only when the capability table permits that exact level; when
the exact level is not permitted the result, if valid, carries a
deterministically downgraded (strictly different) level — in particular the
documented cascade (read-write to read-only, create-edit to comment to view)
is honoured whenever it applies — and the evaluator returns invalid only when
the cascade offers no downgrade. -/
theorem capability_gate_exact_or_downgrade (env : DataEnv) (userId : String)
    (role : UserRole) (system : SystemName) (lvl : AccessLevel)
    (hlvl : lvl ≠ .admin) :
    ((validateAccessRequest env userId role system lvl none).isValid = true ∧
      (validateAccessRequest env userId role system lvl none).allowedAccessLevel
        = some lvl →
      tablePermits role system lvl = true) ∧
    (tablePermits role system lvl = false →
      (validateAccessRequest env userId role system lvl none).isValid = true →
      ∃ d, (validateAccessRequest env userId role system lvl none).allowedAccessLevel
        = some d ∧ d ≠ lvl) ∧
    (tablePermits role system lvl = false →
      ∀ d, specDowngrade role system lvl = some d →
      (validateAccessRequest env userId role system lvl none).isValid = true ∧
      (validateAccessRequest env userId role system lvl none).allowedAccessLevel
        = some d) ∧
    ((validateAccessRequest env userId role system lvl none).isValid = false →
      specDowngrade role system lvl = none) := by
  have key : ∀ (role : UserRole) (system : SystemName) (lvl : AccessLevel),
      lvl ≠ .admin →
      ((validateAccessRequestRules role system lvl).isValid = true ∧
        (validateAccessRequestRules role system lvl).allowedAccessLevel = some lvl →
        tablePermits role system lvl = true) ∧
      (tablePermits role system lvl = false →
        (validateAccessRequestRules role system lvl).isValid = true →
        ∃ d, (validateAccessRequestRules role system lvl).allowedAccessLevel
          = some d ∧ d ≠ lvl) ∧
      (tablePermits role system lvl = false →
        ∀ d, specDowngrade role system lvl = some d →
        (validateAccessRequestRules role system lvl).isValid = true ∧
        (validateAccessRequestRules role system lvl).allowedAccessLevel = some d) ∧
      ((validateAccessRequestRules role system lvl).isValid = false →
        specDowngrade role system lvl = none) := by
    decide
  exact key role system lvl hlvl

/-- Witness for **C4**: an Intern's GitHub read-write request (table permits
read-only only) is downgraded to read-only, and an Intern's Jira create-edit
request falls through the cascade to view. -/
theorem capability_gate_exact_or_downgrade_witness :
    (validateAccessRequest mockEnv "intern-001" .Intern .GitHub .readWrite
      none).allowedAccessLevel = some .readOnly ∧
    (validateAccessRequest mockEnv "intern-001" .Intern .Jira .createEdit
      none).allowedAccessLevel = some .view := by
  constructor
  · exact ((capability_gate_exact_or_downgrade mockEnv "intern-001" .Intern
      .GitHub .readWrite (by decide)).2.2.1 (by decide) .readOnly (by decide)).2
  · exact ((capability_gate_exact_or_downgrade mockEnv "intern-001" .Intern
      .Jira .createEdit (by decide)).2.2.1 (by decide) .view (by decide)).2

/-- **C5.** When a complete state finalizes successfully and the request is
account-owned (an Email/Jira request with a target employee), the created
`AccessRequest` requires approval and is stored `pending`, and the state moves
to AWAITING_APPROVAL — never to the auto-approved APPROVED — whatever the rule
engine alone said about `requiresApproval`. -/
theorem account_owned_always_requires_approval (env : DataEnv)
    (state : RequestState) (freshId now : String) (st' : RequestState)
    (req : AccessRequest)
    (hsys : state.system = some .Email ∨ state.system = some .Jira)
    (hemp : strTruthy state.targetEmployeeId = true)
    (h : transitionToAwaitingApproval env state freshId now = .ok (st', req)) :
    req.requiresApproval = true ∧ req.status = .pending ∧
    st'.status = .AWAITING_APPROVAL := by
  obtain ⟨e, he⟩ : ∃ e, state.targetEmployeeId = some e := by
    cases ho : state.targetEmployeeId with
    | none => rw [ho] at hemp; simp [strTruthy] at hemp
    | some e => exact ⟨e, rfl⟩
  unfold transitionToAwaitingApproval at h
  split_ifs at h
  rcases hsys with h1 | h1 <;>
  · rw [h1] at h
    cases hal : state.accessLevel with
    | none => rw [hal] at h; simp at h
    | some lvl =>
        rw [hal] at h
        rw [he] at hemp
        simp only [he, hemp] at h
        split_ifs at h <;> simp_all
        all_goals
          obtain ⟨hst, hreq⟩ := h
          subst hst
          subst hreq
          exact ⟨rfl, rfl, rfl⟩

/-- A complete account-owned request state: Alice the Intern asking for Email
access to Bob's account.  The rule engine alone would auto-approve it (Intern
Email default access needs no approval). -/
def accountOwnedState : RequestState :=
  { user := "intern-001"
    role := .Intern
    system := some .Email
    accessLevel := some .dfault
    targetEmployeeId := some "manager-001"
    status := .IN_PROGRESS
    agentConfidence := .MEDIUM
    missingFields := [] }

/-- The ledger entry `transitionToAwaitingApproval` creates for
`accountOwnedState`. -/
def accountOwnedRequest : AccessRequest :=
  { id := "req-10"
    userId := "intern-001"
    userName := "Alice"
    userRole := .Intern
    system := .Email
    accessLevel := .dfault
    targetEmployeeId := some "manager-001"
    employeeOwnerId := some "manager-001"
    assignedApproverId := some "manager-001"
    fallbackApproverId := some "admin-001"
    status := .pending
    requiresApproval := true
    createdAt := "2024-01-03T00:00:00Z"
    updatedAt := "2024-01-03T00:00:00Z" }

/-- Witness for **C5**: finalizing `accountOwnedState` yields a pending,
approval-requiring ledger entry and an AWAITING_APPROVAL state even though the
evaluator alone returned `requiresApproval = false`. -/
theorem account_owned_always_requires_approval_witness :
    accountOwnedRequest.requiresApproval = true ∧
    accountOwnedRequest.status = .pending ∧
    ({ accountOwnedState with status := .AWAITING_APPROVAL } : RequestState).status
      = .AWAITING_APPROVAL :=
  account_owned_always_requires_approval mockEnv accountOwnedState "req-10"
    "2024-01-03T00:00:00Z" { accountOwnedState with status := .AWAITING_APPROVAL }
    accountOwnedRequest (Or.inl rfl) (by decide) (by rfl)

/-- **C6.** If, after applying an update, the state is IN_PROGRESS and the
rule engine rejects the request, the attempted auto-finalize is aborted: the
update returns the merged state unchanged, its status is still IN_PROGRESS
(never REJECTED, never AWAITING_APPROVAL); in particular an Intern requesting
admin is always rejected by the evaluator, so such a state can never
auto-finalize. -/
theorem policy_failure_keeps_in_progress (env : DataEnv) (state : RequestState)
    (updates : StateUpdates) (freshId now : String)
    (hs : (updateRequestState state updates).status = .IN_PROGRESS)
    (hv : ∀ sys lvl, (updateRequestState state updates).system = some sys →
      (updateRequestState state updates).accessLevel = some lvl →
      (validateAccessRequest env (updateRequestState state updates).user
        (updateRequestState state updates).role sys lvl
        (projectIdOfName (updateRequestState state updates).project)).isValid
        = false) :
    processStateUpdate env state updates freshId now =
      updateRequestState state updates ∧
    (processStateUpdate env state updates freshId now).status = .IN_PROGRESS ∧
    (∀ (uid : String) (sys : SystemName) (pid : Option String),
      (validateAccessRequest env uid .Intern sys .admin pid).isValid = false) := by
  have haux : processStateUpdate env state updates freshId now =
      updateRequestState state updates := by
    unfold processStateUpdate
    by_cases hc : (updateRequestState state updates).status = .IN_PROGRESS ∧
        shouldAutoSubmit (updateRequestState state updates) = true
    · rw [if_pos hc]
      have htr : ∃ msg, transitionToAwaitingApproval env
          (updateRequestState state updates) freshId now = .error msg := by
        unfold transitionToAwaitingApproval
        rw [if_neg (by simp [hc.1]), if_neg (by simp [hc.2])]
        cases hsy : (updateRequestState state updates).system with
        | none =>
            exfalso
            have h2 := hc.2
            rw [shouldAutoSubmit] at h2
            simp [hsy] at h2
        | some sys =>
            cases hal : (updateRequestState state updates).accessLevel with
            | none =>
                exfalso
                have h2 := hc.2
                rw [shouldAutoSubmit] at h2
                simp [hsy, hal] at h2
            | some lvl =>
                have hval := hv sys lvl hsy hal
                refine ⟨"Access request validation failed: " ++
                  (validateAccessRequest env (updateRequestState state updates).user
                    (updateRequestState state updates).role sys lvl
                    (projectIdOfName
                      (updateRequestState state updates).project)).rejectionReason.getD
                    "Invalid request", ?_⟩
                simp [hval]
      obtain ⟨msg, hmsg⟩ := htr
      rw [hmsg]
    · rw [if_neg hc]
  refine ⟨haux, by rw [haux]; exact hs, ?_⟩
  intro uid sys pid
  have hrules : ∀ s, (validateAccessRequestRules UserRole.Intern s
      AccessLevel.admin).isValid = false := by decide
  cases pid with
  | none => exact hrules sys
  | some p =>
      by_cases hp : p = ""
      · simp only [validateAccessRequest, hp, if_pos]
        exact hrules sys
      · simp only [validateAccessRequest, hp, if_neg]
        by_cases hpa : (validateProjectAccess env uid p).isAssigned = true
        · simp [hpa, hrules sys]
        · simp [hpa]

/-- A complete IN_PROGRESS state in which Alice the Intern asks for Jira admin
access — a request the rule engine rejects outright. -/
def internAdminState : RequestState :=
  { user := "intern-001"
    role := .Intern
    system := some .Jira
    accessLevel := some .admin
    targetEmployeeId := some "manager-001"
    status := .IN_PROGRESS
    agentConfidence := .LOW
    missingFields := [] }

/-- Witness for **C6**: processing the Intern-admin state leaves it
IN_PROGRESS (the auto-finalize attempt is swallowed), and the evaluator indeed
rejects Intern + Jira + admin. -/
theorem policy_failure_keeps_in_progress_witness :
    (processStateUpdate mockEnv internAdminState {} "req-11"
      "2024-01-04T00:00:00Z").status = .IN_PROGRESS ∧
    (validateAccessRequest mockEnv "intern-001" .Intern .Jira .admin none).isValid
      = false := by
  refine ⟨?_, ?_⟩
  · exact (policy_failure_keeps_in_progress mockEnv internAdminState {} "req-11"
      "2024-01-04T00:00:00Z" (by decide) (by decide)).2.1
  · exact (policy_failure_keeps_in_progress mockEnv internAdminState {} "req-11"
      "2024-01-04T00:00:00Z" (by decide) (by decide)).2.2 "intern-001" .Jira none

/-- **C7.** The recomputed missing-fields list is always a sublist of the
master ordering `system, targetEmployeeId, project, accessLevel` — so the
account owner or the project is always asked before the access level — and
each field is listed exactly under its documented condition. -/
theorem missing_fields_ordering (state : RequestState) :
    List.Sublist (validateRequestState state).missingFields
      ["system", "targetEmployeeId", "project", "accessLevel"] ∧
    ("system" ∈ (validateRequestState state).missingFields ↔
      state.system = none) ∧
    ("targetEmployeeId" ∈ (validateRequestState state).missingFields ↔
      (state.system = some .Email ∨ state.system = some .Jira) ∧
        state.role = .Intern ∧ state.targetEmployeeId = none) ∧
    ("project" ∈ (validateRequestState state).missingFields ↔
      state.system = some .GitHub ∧ state.project = none) ∧
    ("accessLevel" ∈ (validateRequestState state).missingFields ↔
      state.accessLevel = none) := by
  unfold validateRequestState
  split_ifs with h1 h2 h3 h4 <;> simp_all

/-- A truthy optional string holds a value. -/
theorem strTruthy_isSome {o : Option String} (h : strTruthy o = true) :
    o.isSome = true := by
  cases o <;> simp [strTruthy] at h ⊢

/-- A pending project-scoped request whose primary approver is `manager-001`,
used to examine the notification composer under an IT Administrator override
decision. -/
def overrideScopedRequest : AccessRequest :=
  { id := "req-20"
    userId := "intern-001"
    userName := "Alice"
    userRole := .Intern
    system := .GitHub
    accessLevel := .readOnly
    project := some "Project Alpha"
    projectId := some "project-1"
    projectOwnerManagerId := some "manager-001"
    assignedApproverId := some "manager-001"
    fallbackApproverId := some "admin-001"
    status := .pending
    requiresApproval := true
    createdAt := "2024-01-05T00:00:00Z"
    updatedAt := "2024-01-05T00:00:00Z" }

/-- Counterexample to **C8** as stated: when the IT Administrator
(`admin-001`) *rejects* a request whose `assignedApproverId` is the different
individual `manager-001`, the emitted event carries no message to that
original primary approver — the override-notification exists only on
approval. -/
theorem rejection_event_skips_original_approver :
    overrideScopedRequest.assignedApproverId = some "manager-001" ∧
    ("manager-001" : String) ≠ "admin-001" ∧
    (emitRejectionEvent mockEnv.users overrideScopedRequest "admin-001"
      .ITAdministrator "No longer needed" "2024-01-06T00:00:00Z").type
      = .rejection ∧
    (emitRejectionEvent mockEnv.users overrideScopedRequest "admin-001"
      .ITAdministrator "No longer needed"
      "2024-01-06T00:00:00Z").originalResourceOwnerId = none ∧
    (emitRejectionEvent mockEnv.users overrideScopedRequest "admin-001"
      .ITAdministrator "No longer needed"
      "2024-01-06T00:00:00Z").originalResourceOwnerMessage = none := by
  refine ⟨rfl, by decide, rfl, rfl, rfl⟩

/-- **C8 (amended).** Every decision event carries a message to the actor and
to the requester (the approval event carrying the access link, the rejection
event the bounded reason); *approval* events carry a message to the original
primary approver exactly when the deciding actor's role is IT Administrator
and `assignedApproverId` is present and differs from the actor; *rejection*
events never carry one. -/
theorem decision_event_messages (users : List User) (request : AccessRequest)
    (approverId : String) (approverRole : UserRole)
    (accessLink reason approvedAt rejectedAt : String) :
    (emitApprovalEvent users request approverId approverRole accessLink
      approvedAt).managerId = approverId ∧
    (emitApprovalEvent users request approverId approverRole accessLink
      approvedAt).internId = request.userId ∧
    (emitApprovalEvent users request approverId approverRole accessLink
      approvedAt).accessLink = some accessLink ∧
    ((emitApprovalEvent users request approverId approverRole accessLink
      approvedAt).originalResourceOwnerId.isSome = true ↔
      approverRole = .ITAdministrator ∧
      strTruthy request.assignedApproverId = true ∧
      request.assignedApproverId ≠ some approverId) ∧
    ((emitApprovalEvent users request approverId approverRole accessLink
      approvedAt).originalResourceOwnerId.isSome = true →
      (emitApprovalEvent users request approverId approverRole accessLink
        approvedAt).originalResourceOwnerId = request.assignedApproverId ∧
      (emitApprovalEvent users request approverId approverRole accessLink
        approvedAt).originalResourceOwnerMessage.isSome = true) ∧
    (emitRejectionEvent users request approverId approverRole reason
      rejectedAt).managerId = approverId ∧
    (emitRejectionEvent users request approverId approverRole reason
      rejectedAt).internId = request.userId ∧
    (emitRejectionEvent users request approverId approverRole reason
      rejectedAt).rejectionReason = some reason ∧
    (emitRejectionEvent users request approverId approverRole reason
      rejectedAt).originalResourceOwnerId = none ∧
    (emitRejectionEvent users request approverId approverRole reason
      rejectedAt).originalResourceOwnerMessage = none := by
  have hnotify : (approverRole == UserRole.ITAdministrator &&
      strTruthy request.assignedApproverId &&
      request.assignedApproverId != some approverId) = true ↔
      approverRole = .ITAdministrator ∧
      strTruthy request.assignedApproverId = true ∧
      request.assignedApproverId ≠ some approverId := by
    simp [and_assoc]
  refine ⟨rfl, rfl, rfl, ?_, ?_, rfl, rfl, rfl, rfl, rfl⟩
  · rw [← hnotify]
    cases hb : (approverRole == UserRole.ITAdministrator &&
        strTruthy request.assignedApproverId &&
        request.assignedApproverId != some approverId) with
    | false => simp [emitApprovalEvent, hb]
    | true =>
        simp only [emitApprovalEvent, hb, if_true]
        have := strTruthy_isSome (o := request.assignedApproverId)
          (by simp at hb; exact hb.1.2)
        simp [this]
  · intro h
    cases hb : (approverRole == UserRole.ITAdministrator &&
        strTruthy request.assignedApproverId &&
        request.assignedApproverId != some approverId) with
    | false => simp [emitApprovalEvent, hb] at h
    | true =>
        constructor
        · simp [emitApprovalEvent, hb]
        · simp only [emitApprovalEvent, hb]
          split_ifs <;> simp

/-- Witness for the amended **C8**: when the IT Administrator approves the
request assigned to `manager-001`, the approval event does carry the
original-approver notification. -/
theorem decision_event_messages_witness :
    (emitApprovalEvent mockEnv.users overrideScopedRequest "admin-001"
      .ITAdministrator "https://github.com/company/project-alpha"
      "2024-01-06T00:00:00Z").originalResourceOwnerId = some "manager-001" := by
  have h := decision_event_messages mockEnv.users overrideScopedRequest "admin-001"
    .ITAdministrator "https://github.com/company/project-alpha" "No longer needed"
    "2024-01-06T00:00:00Z" "2024-01-06T00:00:00Z"
  have hsome := h.2.2.2.1.mpr ⟨rfl, by decide, by decide⟩
  rw [(h.2.2.2.2.1 hsome).1]
  rfl

/-- An escalation request that has already been resolved (approved with a
stored justification). -/
def resolvedEscalation : EscalationRequest :=
  { id := "esc-1"
    userId := "intern-001"
    projectId := "project-1"
    system := .GitHub
    accessLevel := .readOnly
    status := .approved
    escalationTo := "manager-001"
    justification := some "Access approved for project collaboration."
    createdAt := "2024-01-07T00:00:00Z"
    updatedAt := "2024-01-07T00:00:00Z" }

/-- Counterexample to **C9** as stated: a second resolution attempt on the
already-approved escalation `esc-1` is *not* rejected — it succeeds and
overwrites the stored status and justification. -/
theorem reresolution_overwrites_escalation :
    resolvedEscalation.status = .approved ∧
    (processManagerDecisionManually [resolvedEscalation] "esc-1" false
      "Changed my mind." "2024-01-08T00:00:00Z").1 =
      .ok (some { resolvedEscalation with
        status := .rejected
        justification := some "Changed my mind."
        updatedAt := "2024-01-08T00:00:00Z" }) ∧
    (processManagerDecisionManually [resolvedEscalation] "esc-1" false
      "Changed my mind." "2024-01-08T00:00:00Z").2 ≠ [resolvedEscalation] := by
  refine ⟨rfl, rfl, by decide⟩

/-- **C9 (amended).** Manual escalation resolution sets the status and a
justification bounded to 120 characters for any existing escalation, and
errors on an over-long justification or returns the `null` result on an
unknown id — but it does *not* reject re-resolution: the stored status and
justification are overwritten even when the escalation was already
resolved. -/
theorem escalation_resolution_overwrites (store : EscalationStore)
    (requestId : String) (approved : Bool) (justification now : String) :
    (escalationGet store requestId = none →
      processManagerDecisionManually store requestId approved justification now =
        (.ok none, store)) ∧
    (∀ r, escalationGet store requestId = some r → justification.length > 120 →
      processManagerDecisionManually store requestId approved justification now =
        (.error "Justification must be 120 characters or less", store)) ∧
    (∀ r, escalationGet store requestId = some r → justification.length ≤ 120 →
      processManagerDecisionManually store requestId approved justification now =
        (.ok (some { r with
          status := if approved then .approved else .rejected
          justification := some justification
          updatedAt := now }),
         escalationSet store requestId { r with
          status := if approved then .approved else .rejected
          justification := some justification
          updatedAt := now })) := by
  refine ⟨?_, ?_, ?_⟩
  · intro h
    simp [processManagerDecisionManually, h]
  · intro r h hlen
    simp [processManagerDecisionManually, h, hlen]
  · intro r h hlen
    simp [processManagerDecisionManually, h, Nat.not_lt.mpr hlen]

/-- Witness for the amended **C9**: re-resolving the already-approved
escalation overwrites it. -/
theorem escalation_resolution_overwrites_witness :
    processManagerDecisionManually [resolvedEscalation] "esc-1" true
      "Approved again." "2024-01-09T00:00:00Z" =
      (.ok (some { resolvedEscalation with
        status := .approved
        justification := some "Approved again."
        updatedAt := "2024-01-09T00:00:00Z" }),
       [{ resolvedEscalation with
        status := .approved
        justification := some "Approved again."
        updatedAt := "2024-01-09T00:00:00Z" }]) := by
  have h := (escalation_resolution_overwrites [resolvedEscalation] "esc-1" true
    "Approved again." "2024-01-09T00:00:00Z").2.2 resolvedEscalation rfl (by decide)
  rw [h]
  rfl

/-- **C10.** The ledger-decision write-backs are frame-safe: when no state is
stored for the user they return `null` and touch nothing, and when the stored
state is not AWAITING_APPROVAL they return it unmodified and leave the store
identical — a late or stray ledger decision can never alter a DRAFT,
IN_PROGRESS or already-terminal conversation state. -/
theorem ledger_writeback_frame (store : StateStore) (userId : String)
    (accessLink reason : String) (approverId : Option String)
    (approverRole : Option UserRole) (decidedAt : Option String) :
    (stateGet store userId = none →
      updateRequestStateFromApproval store userId accessLink approverId
        approverRole decidedAt = (none, store) ∧
      updateRequestStateFromRejection store userId reason approverId
        approverRole decidedAt = (none, store)) ∧
    (∀ st, stateGet store userId = some st → st.status ≠ .AWAITING_APPROVAL →
      updateRequestStateFromApproval store userId accessLink approverId
        approverRole decidedAt = (some st, store) ∧
      updateRequestStateFromRejection store userId reason approverId
        approverRole decidedAt = (some st, store)) := by
  constructor
  · intro h
    constructor <;>
      simp [updateRequestStateFromApproval, updateRequestStateFromRejection, h]
  · intro st h hstat
    constructor <;>
      simp [updateRequestStateFromApproval, updateRequestStateFromRejection, h, hstat]

/-- Witness for **C10**: an approval write-back aimed at a user whose state is
still DRAFT returns the DRAFT state and leaves the store identical, and one
aimed at an unknown user returns `null`. -/
theorem ledger_writeback_frame_witness :
    updateRequestStateFromApproval
      [("intern-001", createInitialRequestState "intern-001" .Intern)]
      "intern-001" "https://github.com/company" (some "admin-001")
      (some .ITAdministrator) (some "2024-01-10T00:00:00Z") =
      (some (createInitialRequestState "intern-001" .Intern),
       [("intern-001", createInitialRequestState "intern-001" .Intern)]) ∧
    updateRequestStateFromApproval
      [("intern-001", createInitialRequestState "intern-001" .Intern)]
      "dev-007" "https://github.com/company" (some "admin-001")
      (some .ITAdministrator) (some "2024-01-10T00:00:00Z") =
      (none, [("intern-001", createInitialRequestState "intern-001" .Intern)]) := by
  constructor
  · exact ((ledger_writeback_frame
      [("intern-001", createInitialRequestState "intern-001" .Intern)] "intern-001"
      "https://github.com/company" "" (some "admin-001") (some .ITAdministrator)
      (some "2024-01-10T00:00:00Z")).2 (createInitialRequestState "intern-001" .Intern)
      rfl (by decide)).1
  · exact ((ledger_writeback_frame
      [("intern-001", createInitialRequestState "intern-001" .Intern)] "dev-007"
      "https://github.com/company" "" (some "admin-001") (some .ITAdministrator)
      (some "2024-01-10T00:00:00Z")).1 rfl).1

set_option maxRecDepth 8192 in
/-- Every ledger entry created by a successful finalize has `status = pending`
exactly when it has `requiresApproval` — the store invariant assumed by
`pending_visibility_exact`. -/
theorem created_request_status_matches_requiresApproval (env : DataEnv)
    (state : RequestState) (freshId now : String) (st' : RequestState)
    (req : AccessRequest)
    (h : transitionToAwaitingApproval env state freshId now = .ok (st', req)) :
    req.status = .pending ↔ req.requiresApproval = true := by
  cases hsy : state.system with
  | none =>
      simp only [transitionToAwaitingApproval, hsy] at h
      split_ifs at h
  | some sys =>
      cases hal : state.accessLevel with
      | none =>
          simp only [transitionToAwaitingApproval, hsy, hal] at h
          split_ifs at h
      | some lvl =>
          simp only [transitionToAwaitingApproval, hsy, hal] at h
          split_ifs at h <;>
            first
            | exact Except.noConfusion h
            | exact absurd rfl ‹¬ (true = true)›
            | (injection h with h'; cases h'; simp [*])

end Access
